import Mathlib

/-!
Shallow embedding of the LVM metadata cache of `lib/vdsm/storage/lvm.py`.

The cache maps (`_pvs`, `_vgs`, `_lvs`) are modelled as association lists
with dict-like upsert/erase; subprocess results (`lvmcmd.run`) are passed in
explicitly as the stdout lines and an optional command error, so every cache
routine becomes a pure state-passing function.
-/

namespace Lvm

/-- Python dict lookup on an association list (first matching key). -/
def alook {κ α : Type} [DecidableEq κ] (k : κ) : List (κ × α) → Option α
  | [] => none
  | (a, v) :: rest => if a = k then some v else alook k rest

/-- Python dict assignment `d[k] = v`: replace the first binding of `k`,
append a new binding if `k` is absent. -/
def aupsert {κ α : Type} [DecidableEq κ] (k : κ) (v : α) : List (κ × α) → List (κ × α)
  | [] => [(k, v)]
  | (a, w) :: rest => if a = k then (k, v) :: rest else (a, w) :: aupsert k v rest

/-- Python dict deletion `del d[k]` (removes every binding of `k`). -/
def aerase {κ α : Type} [DecidableEq κ] (k : κ) : List (κ × α) → List (κ × α)
  | [] => []
  | (a, w) :: rest => if a = k then aerase k rest else (a, w) :: aerase k rest

/-- Python `set.discard` on a list-modelled set of strings. -/
def sdiscard (n : String) : List String → List String
  | [] => []
  | x :: rest => if x = n then sdiscard n rest else x :: sdiscard n rest

/-- Python `set.add` on a list-modelled set of strings. -/
def sinsert (n : String) (l : List String) : List String :=
  if n ∈ l then l else l ++ [n]

/-- Build a set (as a duplicate-free list) from a list of strings, as the
set comprehension in `_loadAllLvs` does. -/
def setOfNames (l : List String) : List String :=
  l.foldl (fun acc n => sinsert n acc) []

/-- Split a character list at every occurrence of `sep`, as Python
`str.split` does with a one-character separator (`"".split(sep) = [""]`). -/
def splitChars (sep : Char) : List Char → List (List Char)
  | [] => [[]]
  | c :: rest =>
    if c = sep then [] :: splitChars sep rest
    else
      match splitChars sep rest with
      | [] => [[c]]
      | g :: gs => (c :: g) :: gs

/-- Python `s.split(sep)` for a one-character separator. -/
def pysplit (sep : Char) (s : String) : List String :=
  (splitChars sep s.data).map fun g => String.mk g

/-- Python whitespace test used by `str.strip()`. -/
def isSpaceChar (c : Char) : Bool :=
  c = ' ' || c = '\t' || c = '\n' || c = '\r'

/-- Python `str.strip()`: drop whitespace from both ends. -/
def strip (s : String) : String :=
  String.mk ((((s.data.dropWhile isSpaceChar).reverse).dropWhile isSpaceChar).reverse)

/-- Boolean prefix test on character lists (for `str.startswith`). -/
def isPrefixChars : List Char → List Char → Bool
  | [], _ => true
  | _ :: _, [] => false
  | a :: as, b :: bs => a = b && isPrefixChars as bs

/-- Model of `os.path.basename`: the part of the path after the final slash. -/
def basename (s : String) : String :=
  (pysplit '/' s).getLastD ""

-- Constants of lvm.py.

def SEPARATOR : String := "|"

def UNKNOWN : String := "[unknown]"

def VG_OK : String := "OK"

def VG_PARTIAL : String := "PARTIAL"

def PV_FIELDS : String :=
  "uuid,name,size,vg_name,vg_uuid,pe_start,pe_count,pe_alloc_count,mda_count,dev_size,mda_used_count"

def PV_FIELDS_LEN : Nat := (pysplit ',' PV_FIELDS).length

def VG_FIELDS : String :=
  "uuid,name,attr,size,free,extent_size,extent_count,free_count,tags,vg_mda_size,vg_mda_free,lv_count,pv_count,pv_name"

def VG_FIELDS_LEN : Nat := (pysplit ',' VG_FIELDS).length

def LV_FIELDS : String := "uuid,name,vg_name,attr,size,seg_start_pe,devices,tags"

def LV_FIELDS_LEN : Nat := (pysplit ',' LV_FIELDS).length

/-- Model of `_tags2Tuple`: comma-separated tag string as a tuple; empty string gives
the empty tuple. -/
def tags2Tuple (sTags : String) : List String :=
  if sTags = "" then [] else pysplit ',' sTags

/-- One output line split on the separator with every field stripped,
as in `line.split(SEPARATOR)` + `field.strip()`. -/
def splitLine (line : String) : List String :=
  (pysplit '|' line).map strip

/-- Physical volume record (`PV` namedtuple). -/
structure PV where
  uuid : String
  name : String
  size : String
  vg_name : String
  vg_uuid : String
  pe_start : String
  pe_count : String
  pe_alloc_count : String
  mda_count : String
  dev_size : String
  mda_used_count : String
  guid : String
deriving DecidableEq, Repr

/-- Model of `PV.fromlvm`: build a PV from the (already length-checked) fields of a
`pvs` output line; `guid` is the basename of the `name` field. -/
def PV.fromFields (f : List String) : PV :=
  { uuid := f.getD 0 "", name := f.getD 1 "", size := f.getD 2 "",
    vg_name := f.getD 3 "", vg_uuid := f.getD 4 "", pe_start := f.getD 5 "",
    pe_count := f.getD 6 "", pe_alloc_count := f.getD 7 "",
    mda_count := f.getD 8 "", dev_size := f.getD 9 "",
    mda_used_count := f.getD 10 "", guid := basename (f.getD 1 "") }

/-- Model of `is_metadata_pv`. -/
def PV.is_metadata_pv (pv : PV) : Bool := pv.mda_used_count = "2"

/-- VG attr sextuple (`VG_ATTR` namedtuple). -/
structure VG_ATTR where
  permission : Char
  resizeable : Char
  exported : Char
  partialFlag : Char
  allocation : Char
  clustered : Char
deriving DecidableEq, Repr

/-- Volume group record (`VG` namedtuple). -/
structure VG where
  uuid : String
  name : String
  attr : VG_ATTR
  size : String
  free : String
  extent_size : String
  extent_count : String
  free_count : String
  tags : List String
  vg_mda_size : String
  vg_mda_free : String
  lv_count : String
  pv_count : String
  pv_name : List String
  writeable : Bool
  partialState : String
deriving DecidableEq, Repr

/-- A raw `vgs` row after field split: the thirteen scalar columns plus the
accumulated `pv_name` list (rows sharing a uuid are collapsed). -/
structure VGRow where
  uuid : String
  name : String
  attr : String
  size : String
  free : String
  extent_size : String
  extent_count : String
  free_count : String
  tags : String
  vg_mda_size : String
  vg_mda_free : String
  lv_count : String
  pv_count : String
  pv_names : List String
deriving DecidableEq, Repr

/-- The thirteen scalar columns of a length-checked `vgs` line, with the
`pv_name` column as a one-element list. -/
def VGRow.ofFields (f : List String) : VGRow :=
  { uuid := f.getD 0 "", name := f.getD 1 "", attr := f.getD 2 "",
    size := f.getD 3 "", free := f.getD 4 "", extent_size := f.getD 5 "",
    extent_count := f.getD 6 "", free_count := f.getD 7 "",
    tags := f.getD 8 "", vg_mda_size := f.getD 9 "",
    vg_mda_free := f.getD 10 "", lv_count := f.getD 11 "",
    pv_count := f.getD 12 "", pv_names := [f.getD 13 ""] }

/-- Model of `VG.fromlvm`: decompose the attr column positionally, split the tag
column, keep the collapsed `pv_name` list, and derive `writeable` and the
partial state.  `none` models the `TypeError` Python raises when the attr
column is shorter than the six attr bits. -/
def VG.fromlvm (row : VGRow) : Option VG :=
  match row.attr.toList.take 6 with
  | [p, r, e, pa, al, c] =>
    some { uuid := row.uuid, name := row.name,
           attr := ⟨p, r, e, pa, al, c⟩,
           size := row.size, free := row.free,
           extent_size := row.extent_size, extent_count := row.extent_count,
           free_count := row.free_count, tags := tags2Tuple row.tags,
           vg_mda_size := row.vg_mda_size, vg_mda_free := row.vg_mda_free,
           lv_count := row.lv_count, pv_count := row.pv_count,
           pv_name := row.pv_names,
           writeable := p = 'w',
           partialState := if pa = '-' then VG_OK else VG_PARTIAL }
  | _ => none

/-- LV attr octuple (`LV_ATTR` namedtuple). -/
structure LV_ATTR where
  voltype : Char
  permission : Char
  allocations : Char
  fixedminor : Char
  state : Char
  devopen : Char
  target : Char
  zero : Char
deriving DecidableEq, Repr

/-- Logical volume record (`LV` namedtuple). -/
structure LV where
  uuid : String
  name : String
  vg_name : String
  attr : LV_ATTR
  size : String
  seg_start_pe : String
  devices : String
  tags : List String
  writeable : Bool
  opened : Bool
  active : Bool
deriving DecidableEq, Repr

/-- Model of `LV.fromlvm` on the length-checked fields of an `lvs` output line;
`none` models the `TypeError` on an attr column shorter than eight bits. -/
def LV.fromFields (f : List String) : Option LV :=
  match (f.getD 3 "").toList.take 8 with
  | [v, p, al, fx, s, d, t, z] =>
    some { uuid := f.getD 0 "", name := f.getD 1 "", vg_name := f.getD 2 "",
           attr := ⟨v, p, al, fx, s, d, t, z⟩,
           size := f.getD 4 "", seg_start_pe := f.getD 5 "",
           devices := f.getD 6 "", tags := tags2Tuple (f.getD 7 ""),
           writeable := p = 'w', opened := d = 'o', active := s = 'a' }
  | _ => none

/-- A cache slot: a fully parsed record (`PV`/`VG`/`LV`), a `Stale`
placeholder, or an `Unreadable` placeholder. -/
inductive Entry (α : Type) where
  | fresh (record : α)
  | stale (name : String)
  | unreadable (name : String)
deriving DecidableEq, Repr

/-- Model of `is_stale()`: false on parsed records, true on both placeholders. -/
def Entry.is_stale {α : Type} : Entry α → Bool
  | .fresh _ => false
  | .stale _ => true
  | .unreadable _ => true

/-- Model of `.name` attribute of a cache slot (`nm` extracts the record's name). -/
def Entry.entryName {α : Type} (nm : α → String) : Entry α → String
  | .fresh r => nm r
  | .stale n => n
  | .unreadable n => n

/-- The mutable state of `LVMCache` (without locks, which serialize the
operations modelled here). -/
structure LVMState where
  cache_lvs : Bool
  stalepv : Bool
  stalevg : Bool
  freshlv : List String
  pvs : List (String × Entry PV)
  vgs : List (String × Entry VG)
  lvs : List ((String × String) × Entry LV)
deriving DecidableEq, Repr

/-- Errors raised by the modelled routines: `InvalidOutputLine`, the
`TypeError` of a short attr column, and the storage exceptions. -/
inductive PyErr where
  | invalidOutputLine (command : String) (line : String)
  | attrTypeError (attr : String)
  | valueError (s : String)
  | attributeError (name : String)
  | inaccessiblePhysDev (names : List String)
  | volumeGroupDoesNotExist (name : String)
  | logicalVolumeDoesNotExistError (vg : String) (lv : String)
  | physDevInitializationError
  | volumeGroupCreateError
  | volumeGroupReduceError
  | couldNotMovePVData
deriving DecidableEq, Repr

/-- An external LVM command error (`LVMCommandError`): exit code, stdout
lines and stderr lines. -/
structure LVMCommandError where
  rc : Nat
  out : List String
  err : List String
deriving DecidableEq, Repr

/-- Modelled from the spec: `lvmcmd.fqpvname` is not under src/; per §6 it
produces the canonical full-path form of a PV name (device paths live under
`/dev/mapper`). -/
def fqpvname (pv : String) : String :=
  if isPrefixChars "/dev/mapper".data pv.data then pv else "/dev/mapper/" ++ pv

-- ### PV cache update (`_updatepvs_locked`, `_update_stale_pvs_locked`)

/-- The per-line loop of `_updatepvs_locked`: split/strip each line, check
the field count (else `InvalidOutputLine` stops processing, leaving the map
as mutated so far), skip `[unknown]` PVs, and upsert both the cache map and
the `updated_pvs` dict. -/
def updatepvs_lines (pvs updated : List (String × Entry PV)) :
    List String → List (String × Entry PV) × List (String × Entry PV) × Option PyErr
  | [] => (pvs, updated, none)
  | line :: rest =>
    let fields := splitLine line
    if fields.length = PV_FIELDS_LEN then
      let pv := PV.fromFields fields
      if pv.name = UNKNOWN then updatepvs_lines pvs updated rest
      else
        updatepvs_lines (aupsert pv.name (.fresh pv) pvs)
          (aupsert pv.name (.fresh pv) updated) rest
    else (pvs, updated, some (.invalidOutputLine "pvs" line))

/-- The stale-removal loop of `_updatepvs_locked`: over `pv_names` (or every
key of the map when no names were given) delete the names not reported by
LVM.  Deleting an absent key is a no-op, matching the `if name in self._pvs`
guard. -/
def removeStalePvs (pvs updated : List (String × Entry PV)) (pv_names : List String) :
    List (String × Entry PV) :=
  let candidates := if pv_names.isEmpty then pvs.map Prod.fst else pv_names
  (candidates.filter (fun n => (alook n updated).isNone)).foldl (fun m n => aerase n m) pvs

/-- Model of `_updatepvs_locked`: upsert the reported PVs, then remove the stale
ones; on `InvalidOutputLine` the exception propagates with the partially
updated map and without the removal pass. -/
def updatepvs_locked (st : LVMState) (out : List String) (pv_names : List String) :
    LVMState × List (String × Entry PV) × Option PyErr :=
  match updatepvs_lines st.pvs [] out with
  | (pvs1, updated, some e) => ({st with pvs := pvs1}, updated, some e)
  | (pvs1, updated, none) =>
    ({st with pvs := removeStalePvs pvs1 updated pv_names}, updated, none)

/-- The loop of `_update_stale_pvs_locked` over an explicit key list:
every present, stale entry becomes `Unreadable` (recorded in the returned
`updated_pvs` dict as well). -/
def update_stale_pvs_keys (pvs updated : List (String × Entry PV)) :
    List String → List (String × Entry PV) × List (String × Entry PV)
  | [] => (pvs, updated)
  | k :: rest =>
    match alook k pvs with
    | some e =>
      if e.is_stale then
        update_stale_pvs_keys (aupsert k (.unreadable (e.entryName PV.name)) pvs)
          (aupsert k (.unreadable (e.entryName PV.name)) updated) rest
      else update_stale_pvs_keys pvs updated rest
    | none => update_stale_pvs_keys pvs updated rest

/-- Model of `_update_stale_pvs_locked`: iterate `pv_names` (or all keys when the
list is empty). -/
def update_stale_pvs_locked (st : LVMState) (pv_names : List String) :
    LVMState × List (String × Entry PV) :=
  let keys := if pv_names.isEmpty then st.pvs.map Prod.fst else pv_names
  let r := update_stale_pvs_keys st.pvs [] keys
  ({st with pvs := r.1}, r.2)

-- ### VG cache update (`_updatevgs_locked`, `_update_stale_vgs_locked`)

/-- Append a PV name to the group of rows sharing `uuid`
(`vgsFields[uuid][pvNameIdx].append(pv_name)`). -/
def addPvName (uuid pv : String) : List (String × VGRow) → List (String × VGRow)
  | [] => []
  | (u, row) :: rest =>
    if u = uuid then (u, {row with pv_names := row.pv_names ++ [pv]}) :: rest
    else (u, row) :: addPvName uuid pv rest

/-- The first loop of `_updatevgs_locked`: split/strip each line, check the
field count, skip rows whose `pv_name` is `[unknown]`, and group the rows by
uuid, collapsing the `pv_name` column into a list.  This loop touches no
cache state. -/
def parse_vg_lines (groups : List (String × VGRow)) :
    List String → Except PyErr (List (String × VGRow))
  | [] => .ok groups
  | line :: rest =>
    let fields := splitLine line
    if fields.length = VG_FIELDS_LEN then
      let pv_name := fields.getD 13 ""
      if pv_name = UNKNOWN then parse_vg_lines groups rest
      else
        let uuid := fields.getD 0 ""
        match alook uuid groups with
        | none => parse_vg_lines (groups ++ [(uuid, VGRow.ofFields fields)]) rest
        | some _ => parse_vg_lines (addPvName uuid pv_name groups) rest
    else .error (.invalidOutputLine "vgs" line)

/-- Does `int(s)` succeed in Python?  Modelled as an optional sign followed
by digits, after stripping (underscore-grouped literals, which Python also
accepts, are treated as errors, which only narrows the success cases). -/
def pyParsesInt (s : String) : Bool :=
  let t := (strip s).data
  match t with
  | '-' :: ds => !ds.isEmpty && ds.all Char.isDigit
  | '+' :: ds => !ds.isEmpty && ds.all Char.isDigit
  | ds => !ds.isEmpty && ds.all Char.isDigit

/-- The second loop of `_updatevgs_locked`: build each VG record and upsert
it into the cache map and the `updatedVGs` dict.  The `pv_count`
consistency check only logs, but the `int(vg.pv_count)` conversion it
performs raises `ValueError` on a non-numeric column. -/
def insert_vgs (vgs : List (String × Entry VG)) (updated : List (String × VG)) :
    List VGRow → List (String × Entry VG) × List (String × VG) × Option PyErr
  | [] => (vgs, updated, none)
  | row :: rest =>
    match VG.fromlvm row with
    | some vg =>
      if pyParsesInt vg.pv_count then
        insert_vgs (aupsert vg.name (.fresh vg) vgs) (aupsert vg.name vg updated) rest
      else (vgs, updated, some (.valueError vg.pv_count))
    | none => (vgs, updated, some (.attrTypeError row.attr))

/-- One deletion of the stale-removal loop of `_updatevgs_locked`: if the
name is still in the map, delete it and discard its `freshlv` mark. -/
def removeStaleVgStep (s : LVMState) (n : String) : LVMState :=
  if (alook n s.vgs).isSome then
    {s with vgs := aerase n s.vgs, freshlv := sdiscard n s.freshlv}
  else s

/-- The stale-removal loop of `_updatevgs_locked`: names (or all keys) not
reported by LVM are deleted from the map and discarded from `freshlv`. -/
def removeStaleVgs (st : LVMState) (updated : List (String × VG)) (vg_names : List String) :
    LVMState :=
  let candidates := if vg_names.isEmpty then st.vgs.map Prod.fst else vg_names
  (candidates.filter (fun n => (alook n updated).isNone)).foldl removeStaleVgStep st

/-- Model of `_updatevgs_locked`. -/
def updatevgs_locked (st : LVMState) (out : List String) (vg_names : List String) :
    LVMState × List (String × VG) × Option PyErr :=
  match parse_vg_lines [] out with
  | .error e => (st, [], some e)
  | .ok groups =>
    match insert_vgs st.vgs [] (groups.map Prod.snd) with
    | (vgs1, updated, some e) => ({st with vgs := vgs1}, updated, some e)
    | (vgs1, updated, none) =>
      (removeStaleVgs {st with vgs := vgs1} updated vg_names, updated, none)

/-- One step of `_update_stale_vgs_locked` / `_update_stale_pvs_locked`:
if the key holds a stale entry, replace it by an `Unreadable` placeholder
carrying the entry's name. -/
def stale_step {α : Type} (nm : α → String) (m : List (String × Entry α)) (k : String) :
    List (String × Entry α) :=
  match alook k m with
  | some e => if e.is_stale then aupsert k (.unreadable (e.entryName nm)) m else m
  | none => m

/-- Fold `stale_step` over a list of keys. -/
def applyStale {α : Type} (nm : α → String) (m : List (String × Entry α))
    (keys : List String) : List (String × Entry α) :=
  keys.foldl (stale_step nm) m

/-- Model of `_update_stale_vgs_locked`: every present, stale VG among `vg_names`
(or all keys when the list is empty) becomes `Unreadable`. -/
def update_stale_vgs_locked (st : LVMState) (vg_names : List String) : LVMState :=
  {st with vgs :=
    applyStale VG.name st.vgs (if vg_names.isEmpty then st.vgs.map Prod.fst else vg_names)}

-- ### VG reload (`_reloadvgs`, `getAllVgs`)

/-- Model of `_reloadvgs`: `out`/`error` are the stdout lines and optional failure of
the `vgs` command (`run_command_error`).  On failure the stale entries are
demoted first, and the update is still attempted on whatever stdout was
produced; the `stalevg` flag is dropped whenever the call was for all VGs
and no exception escaped the update. -/
def reloadvgs (st : LVMState) (vgNames : List String) (out : List String)
    (error : Option LVMCommandError) : LVMState × List (String × VG) × Option PyErr :=
  let st1 := if error.isSome then update_stale_vgs_locked st vgNames else st
  match updatevgs_locked st1 out vgNames with
  | (st2, updated, some e) => (st2, updated, some e)
  | (st2, updated, none) =>
    (if vgNames.isEmpty then {st2 with stalevg := false} else st2, updated, none)

/-- Result of a bulk getter: the returned entries, the new cache state, the
hit/miss increments, and the number of LVM subprocess invocations issued. -/
structure GetAllRes (α : Type) where
  result : Except PyErr (List α)
  state : LVMState
  hits : Nat
  misses : Nat
  commands : Nat
deriving Repr

/-- Model of `getAllVgs`: when `stalevg` is set, bulk-reload everything; otherwise
copy the map, bulk-reload only the stale names (if any), merging the result
into the copy. -/
def getAllVgs (st : LVMState) (out : List String) (error : Option LVMCommandError) :
    GetAllRes (Entry VG) :=
  if st.stalevg then
    match reloadvgs st [] out error with
    | (st1, _, some e) => ⟨.error e, st1, 0, 1, 1⟩
    | (st1, updated, none) => ⟨.ok (updated.map (fun p => .fresh p.2)), st1, 0, 1, 1⟩
  else
    let vgsC := st.vgs
    let stalevgs := vgsC.filterMap
      (fun p => if p.2.is_stale then some (p.2.entryName VG.name) else none)
    if stalevgs.isEmpty then ⟨.ok (vgsC.map Prod.snd), st, 1, 0, 0⟩
    else
      let vgsD := stalevgs.foldl (fun m n => aerase n m) vgsC
      match reloadvgs st stalevgs out error with
      | (st1, _, some e) => ⟨.error e, st1, 0, 1, 1⟩
      | (st1, updated, none) =>
        let merged := updated.foldl (fun m p => aupsert p.1 (Entry.fresh p.2) m) vgsD
        ⟨.ok (merged.map Prod.snd), st1, 0, 1, 1⟩

-- ### PV reload (`_reload_single_pv`, `_reloadpvs`, `getPv`, `getAllPvs`)

/-- Model of `_reload_single_pv`. -/
def reload_single_pv (st : LVMState) (pv_name : String) (out : List String)
    (error : Option LVMCommandError) : Except PyErr (Entry PV) × LVMState :=
  match error with
  | some _ =>
    match update_stale_pvs_locked st [pv_name] with
    | (st1, updated) =>
      match alook pv_name updated with
      | none => (.error (.inaccessiblePhysDev [pv_name]), st1)
      | some entry => (.ok entry, st1)
  | none =>
    match updatepvs_locked st out [pv_name] with
    | (st1, _, some e) => (.error e, st1)
    | (st1, updated, none) =>
      match alook pv_name updated with
      | none => (.error (.inaccessiblePhysDev [pv_name]), st1)
      | some entry => (.ok entry, st1)

/-- Model of `_reloadpvs`. -/
def reloadpvs (st : LVMState) (pv_names : List String) (out : List String)
    (error : Option LVMCommandError) : LVMState × List (String × Entry PV) × Option PyErr :=
  match error with
  | some _ =>
    match update_stale_pvs_locked st pv_names with
    | (st1, updated) => (st1, updated, none)
  | none =>
    match updatepvs_locked st out pv_names with
    | (st1, updated, some e) => (st1, updated, some e)
    | (st1, updated, none) =>
      (if pv_names.isEmpty then {st1 with stalepv := false} else st1, updated, none)

/-- Model of `getPv`: serve a present non-stale entry as a hit, otherwise count a
miss and run the single-PV reload.  The last two components are the
hit/miss increments. -/
def getPv (st : LVMState) (pv_name : String) (out : List String)
    (error : Option LVMCommandError) : Except PyErr (Entry PV) × LVMState × Nat × Nat :=
  match alook pv_name st.pvs with
  | some e =>
    if e.is_stale then
      match reload_single_pv st pv_name out error with
      | (r, st1) => (r, st1, 0, 1)
    else (.ok e, st, 1, 0)
  | none =>
    match reload_single_pv st pv_name out error with
    | (r, st1) => (r, st1, 0, 1)

/-- Model of `getAllPvs`. -/
def getAllPvs (st : LVMState) (out : List String) (error : Option LVMCommandError) :
    GetAllRes (Entry PV) :=
  if st.stalepv then
    match reloadpvs st [] out error with
    | (st1, _, some e) => ⟨.error e, st1, 0, 1, 1⟩
    | (st1, updated, none) => ⟨.ok (updated.map Prod.snd), st1, 0, 1, 1⟩
  else
    let pvsC := st.pvs
    let stalepvs := pvsC.filterMap
      (fun p => if p.2.is_stale then some (p.2.entryName PV.name) else none)
    if stalepvs.isEmpty then ⟨.ok (pvsC.map Prod.snd), st, 1, 0, 0⟩
    else
      let pvsD := stalepvs.foldl (fun m n => aerase n m) pvsC
      match reloadpvs st stalepvs out error with
      | (st1, _, some e) => ⟨.error e, st1, 0, 1, 1⟩
      | (st1, updated, none) =>
        let merged := updated.foldl (fun m p => aupsert p.1 p.2 m) pvsD
        ⟨.ok (merged.map Prod.snd), st1, 0, 1, 1⟩

-- ### LV cache update and reload

/-- The per-line loop of `_updatelvs_locked` (and `_reload_single_lv`):
only rows whose `seg_start_pe` is `"0"` are retained. -/
def updatelvs_lines (lvs updated : List ((String × String) × Entry LV)) :
    List String →
      List ((String × String) × Entry LV) × List ((String × String) × Entry LV) × Option PyErr
  | [] => (lvs, updated, none)
  | line :: rest =>
    let fields := splitLine line
    if fields.length = LV_FIELDS_LEN then
      match LV.fromFields fields with
      | none => (lvs, updated, some (.attrTypeError (fields.getD 3 "")))
      | some lv =>
        if lv.seg_start_pe = "0" then
          updatelvs_lines (aupsert (lv.vg_name, lv.name) (.fresh lv) lvs)
            (aupsert (lv.vg_name, lv.name) (.fresh lv) updated) rest
        else updatelvs_lines lvs updated rest
    else (lvs, updated, some (.invalidOutputLine "lvs" line))

/-- The stale-removal loop of `_updatelvs_locked`: over the whole map (bulk
reload) or the single `(vg_name, lv_name)` key, delete the keys of this VG
not reported by LVM. -/
def removeStaleLvs (lvs updated : List ((String × String) × Entry LV)) (vg_name : String)
    (lv_name : Option String) : List ((String × String) × Entry LV) :=
  let items := match lv_name with
    | none => lvs.map Prod.fst
    | some n => [(vg_name, n)]
  let staleL := items.filterMap (fun p =>
    if p.1 = vg_name then (if (alook p updated).isNone then some p.2 else none) else none)
  staleL.foldl (fun m n => aerase (vg_name, n) m) lvs

/-- Model of `_updatelvs_locked`. -/
def updatelvs_locked (st : LVMState) (out : List String) (vg_name : String)
    (lv_name : Option String) :
    LVMState × List ((String × String) × Entry LV) × Option PyErr :=
  match updatelvs_lines st.lvs [] out with
  | (lvs1, updated, some e) => ({st with lvs := lvs1}, updated, some e)
  | (lvs1, updated, none) =>
    ({st with lvs := removeStaleLvs lvs1 updated vg_name lv_name}, updated, none)

/-- The loop of `_update_stale_lvs_locked` over the LV names of a VG. -/
def update_stale_lvs_keys (vg_name : String)
    (lvs updated : List ((String × String) × Entry LV)) :
    List String → List ((String × String) × Entry LV) × List ((String × String) × Entry LV)
  | [] => (lvs, updated)
  | n :: rest =>
    match alook (vg_name, n) lvs with
    | some e =>
      if e.is_stale then
        update_stale_lvs_keys vg_name
          (aupsert (vg_name, n) (.unreadable (e.entryName LV.name)) lvs)
          (aupsert (vg_name, n) (.unreadable (e.entryName LV.name)) updated) rest
      else update_stale_lvs_keys vg_name lvs updated rest
    | none => update_stale_lvs_keys vg_name lvs updated rest

/-- Model of `_update_stale_lvs_locked`. -/
def update_stale_lvs_locked (st : LVMState) (vg_name : String) :
    LVMState × List ((String × String) × Entry LV) :=
  let lv_names := st.lvs.filterMap (fun p => if p.1.1 = vg_name then some p.1.2 else none)
  let r := update_stale_lvs_keys vg_name st.lvs [] lv_names
  ({st with lvs := r.1}, r.2)

/-- Model of `_reload_single_lv`: on a command error demote the VG's stale LVs and
raise `LogicalVolumeDoesNotExistError`; on success return the updated LV or
raise if it was not reported. -/
def reload_single_lv (st : LVMState) (vg_name lv_name : String) (out : List String)
    (error : Option LVMCommandError) : Except PyErr (Entry LV) × LVMState :=
  match error with
  | some _ =>
    (.error (.logicalVolumeDoesNotExistError vg_name lv_name),
     (update_stale_lvs_locked st vg_name).1)
  | none =>
    match updatelvs_locked st out vg_name (some lv_name) with
    | (st1, _, some e) => (.error e, st1)
    | (st1, updated, none) =>
      match alook (vg_name, lv_name) updated with
      | none => (.error (.logicalVolumeDoesNotExistError vg_name lv_name), st1)
      | some lv => (.ok lv, st1)

/-- Model of `_reloadlvs`. -/
def reloadlvs (st : LVMState) (vg_name : String) (out : List String)
    (error : Option LVMCommandError) :
    LVMState × List ((String × String) × Entry LV) × Option PyErr :=
  match error with
  | some _ =>
    match update_stale_lvs_locked st vg_name with
    | (st1, updated) => (st1, updated, none)
  | none =>
    match updatelvs_locked st out vg_name none with
    | (st1, updated, some e) => (st1, updated, some e)
    | (st1, updated, none) =>
      ({st1 with freshlv := sinsert vg_name st1.freshlv}, updated, none)

/-- Model of `getLv`: serve a present non-stale entry as a hit, otherwise count a
miss and run the single-LV reload. -/
def getLv (st : LVMState) (vg_name lv_name : String) (out : List String)
    (error : Option LVMCommandError) : Except PyErr (Entry LV) × LVMState × Nat × Nat :=
  match alook (vg_name, lv_name) st.lvs with
  | some e =>
    if e.is_stale then
      match reload_single_lv st vg_name lv_name out error with
      | (r, st1) => (r, st1, 0, 1)
    else (.ok e, st, 1, 0)
  | none =>
    match reload_single_lv st vg_name lv_name out error with
    | (r, st1) => (r, st1, 0, 1)

/-- Model of `_lvs_needs_reload`. -/
def lvs_needs_reload (st : LVMState) (vg_name : String) : Bool :=
  if st.cache_lvs = false then true
  else if vg_name ∈ st.freshlv then
    st.lvs.any (fun p => decide (p.1.1 = vg_name) && p.2.is_stale)
  else true

/-- The filter of `getAllLvs`: `not lv.is_stale() and lv.vg_name == vg_name`
(the short-circuit protects the attribute access on placeholders). -/
def lvVisible (vg_name : String) (e : Entry LV) : Bool :=
  match e with
  | .fresh lv => lv.vg_name = vg_name
  | .stale _ => false
  | .unreadable _ => false

/-- Model of `getAllLvs`: reload the VG's LVs when needed, then return only the
non-stale entries belonging to the VG. -/
def getAllLvs (st : LVMState) (vg_name : String) (out : List String)
    (error : Option LVMCommandError) :
    Except PyErr (List (Entry LV)) × LVMState × Nat × Nat :=
  if lvs_needs_reload st vg_name then
    match reloadlvs st vg_name out error with
    | (st1, _, some e) => (.error e, st1, 0, 1)
    | (st1, updated, none) =>
      (.ok ((updated.map Prod.snd).filter (lvVisible vg_name)), st1, 0, 1)
  else
    (.ok ((st.lvs.map Prod.snd).filter (lvVisible vg_name)), st, 1, 0)

/-- The parse loop of `_loadAllLvs`, building the local `new_lvs` dict;
any bad line aborts without touching cache state. -/
def parse_all_lvs (acc : List ((String × String) × Entry LV)) :
    List String → Except PyErr (List ((String × String) × Entry LV))
  | [] => .ok acc
  | line :: rest =>
    let fields := splitLine line
    if fields.length = LV_FIELDS_LEN then
      match LV.fromFields fields with
      | none => .error (.attrTypeError (fields.getD 3 ""))
      | some lv =>
        if lv.seg_start_pe = "0" then
          parse_all_lvs (aupsert (lv.vg_name, lv.name) (.fresh lv) acc) rest
        else parse_all_lvs acc rest
    else .error (.invalidOutputLine "lvs" line)

/-- Model of `_loadAllLvs` (bootstrap only): on a command error return with the cache
untouched; on success replace `_lvs` in one assignment under the lock and
rebuild `freshlv` as the set of VG names of the new map. -/
def loadAllLvs (st : LVMState) (out : List String) (error : Option LVMCommandError) :
    LVMState × Option PyErr :=
  match error with
  | some _ => (st, none)
  | none =>
    match parse_all_lvs [] out with
    | .error e => (st, some e)
    | .ok new_lvs =>
      ({st with lvs := new_lvs,
                freshlv := setOfNames (new_lvs.map (fun p => p.1.1))}, none)

-- ### Invalidation (`_invalidatepvs`, `_invalidatevgs`, `_invalidatelvs`)

/-- Model of `_invalidatepvs`: set each named entry to a `Stale` placeholder. -/
def invalidatepvs (st : LVMState) (pvNames : List String) : LVMState :=
  {st with pvs := pvNames.foldl (fun m n => aupsert n (.stale n) m) st.pvs}

/-- Model of `_invalidatevgs`. -/
def invalidatevgs (st : LVMState) (vgNames : List String) : LVMState :=
  {st with vgs := vgNames.foldl (fun m n => aupsert n (.stale n) m) st.vgs}

/-- Model of `_invalidatelvs`: specific LVs of the VG, or (with no names) every
non-stale LV whose record belongs to the VG. -/
def invalidatelvs (st : LVMState) (vgName : String) (lvNames : List String) : LVMState :=
  if lvNames.isEmpty then
    let names := st.lvs.filterMap (fun p => match p.2 with
      | .fresh lv => if lv.vg_name = vgName then some lv.name else none
      | _ => none)
    {st with lvs := names.foldl (fun m n => aupsert (vgName, n) (.stale n) m) st.lvs}
  else {st with lvs := lvNames.foldl (fun m n => aupsert (vgName, n) (.stale n) m) st.lvs}

-- ### `run_command`

/-- Outcome of `LVMCache.run_command`: the returned lines or final error,
how many times `lvmcmd.run` was invoked, and whether the device cache was
invalidated. -/
structure RunOutcome (α : Type) where
  result : Except LVMCommandError α
  attempts : Nat
  invalidatedDevices : Bool
deriving Repr

/-- Model of `LVMCache.run_command`.  `cached` is what `_cached_devices()` returns on
entry and `refreshed` what it returns after `invalidate_devices()`; `runner`
is `lvmcmd.run` applied to the device filter and the `use_lvmpolld` flag
(modelled from the spec: `lvmcmd` is not under src/; per §4.1 it raises
`LVMCommandError` on failure or on empty stdout where data was expected).
The retry always uses the default `use_lvmpolld=True`, as in the source. -/
def run_command {α : Type} (devicesArg cached refreshed : List String) (use_lvmpolld : Bool)
    (runner : List String → Bool → Except LVMCommandError α) : RunOutcome α :=
  let devices := if devicesArg.isEmpty then cached else devicesArg
  match runner devices use_lvmpolld with
  | .ok out => ⟨.ok out, 1, false⟩
  | .error e =>
    if refreshed ≠ devices ∨ use_lvmpolld = false then
      match runner refreshed true with
      | .ok out => ⟨.ok out, 2, true⟩
      | .error e2 => ⟨.error e2, 2, true⟩
    else ⟨.error e, 1, true⟩

-- ### Stats (`CacheStats`)

/-- The hits/misses counters of `CacheStats`. -/
structure CacheStats where
  hits : Nat
  misses : Nat
deriving DecidableEq, Repr

/-- Model of `CacheStats.info()`: hits, misses, and the percentage
`100 * hits / calls` guarded by `calls > 0` (division taken in `ℚ`). -/
def CacheStats.info (s : CacheStats) : Nat × Nat × ℚ :=
  let calls := s.hits + s.misses
  (s.hits, s.misses, if 0 < calls then (100 * (s.hits : ℚ)) / (calls : ℚ) else 0)

-- ### Mutation API (`createVG`, `reduceVG`, `movePV`)

/-- Model of `reduceVG`: on failure raise `VolumeGroupReduceError`; the PV/VG
invalidation runs in the `else` (success) branch only.  `error` is the
outcome of the `vgreduce` command. -/
def reduceVG (st : LVMState) (vgName device : String) (error : Option LVMCommandError) :
    Except PyErr Unit × LVMState :=
  let pvName := fqpvname device
  match error with
  | some _ => (.error .volumeGroupReduceError, st)
  | none => (.ok (), invalidatevgs (invalidatepvs st [pvName]) [vgName])

/-- Model of `createVG` after the block-size probe: `_initpvs` (whose `finally`
invalidates the PVs), `_enable_metadata_area`, then `vgcreate`; PV/VG
invalidation for the new VG runs in the `else` (success) branch only.
The three errors are the outcomes of `pvcreate`, `pvchange`, `vgcreate`. -/
def createVG (st : LVMState) (vgName : String) (devices : List String)
    (pvcreate_error pvchange_error vgcreate_error : Option LVMCommandError) :
    Except PyErr Unit × LVMState :=
  let pvs := devices.map fqpvname
  let st1 := invalidatepvs st pvs
  match pvcreate_error with
  | some _ => (.error .physDevInitializationError, st1)
  | none =>
    match pvchange_error with
    | some _ => (.error .physDevInitializationError, st1)
    | none =>
      match vgcreate_error with
      | some _ => (.error .volumeGroupCreateError, st1)
      | none => (.ok (), invalidatevgs (invalidatepvs st1 pvs) [vgName])

/-- Model of `movePV`: invalidate the source PV, look it up again (which reloads it),
and return early — without running `pvmove` — when its `pe_alloc_count` is
`"0"`.  Otherwise run `pvmove` and invalidate PV, LVs and VG in a `finally`.
`pvs_out`/`pvs_error` are the outcome of the reloading `pvs` command and
`pvmove_error` that of `pvmove`; the destination devices only extend the
command argv.  The boolean reports whether `pvmove` was invoked. -/
def movePV (st : LVMState) (vgName src_device : String)
    (pvs_out : List String) (pvs_error : Option LVMCommandError)
    (pvmove_error : Option LVMCommandError) :
    Except PyErr Unit × LVMState × Bool :=
  let pvName := fqpvname src_device
  let st1 := invalidatepvs st [pvName]
  match getPv st1 (fqpvname pvName) pvs_out pvs_error with
  | (.error e, st2, _, _) => (.error e, st2, false)
  | (.ok entry, st2, _, _) =>
    match entry with
    | .fresh pv =>
      if pv.pe_alloc_count = "0" then (.ok (), st2, false)
      else
        let st3 := invalidatevgs (invalidatelvs (invalidatepvs st2 [pvName]) vgName []) [vgName]
        match pvmove_error with
        | some _ => (.error .couldNotMovePVData, st3, true)
        | none => (.ok (), st3, true)
    | .stale n => (.error (.attributeError n), st2, false)
    | .unreadable n => (.error (.attributeError n), st2, false)

-- ### Per-claim fixtures (concrete states used by witnesses/counterexamples)

def c3_vg : VG :=
  { uuid := "uv", name := "v", attr := ⟨'w', 'z', '-', '-', 'n', '-'⟩, size := "100",
    free := "50", extent_size := "4", extent_count := "25", free_count := "12",
    tags := [], vg_mda_size := "1", vg_mda_free := "1", lv_count := "0",
    pv_count := "1", pv_name := ["/dev/mapper/pw"], writeable := true, partialState := "OK" }

def c3_pv : PV :=
  { uuid := "up", name := "/dev/mapper/pw", size := "100", vg_name := "v", vg_uuid := "uv",
    pe_start := "0", pe_count := "25", pe_alloc_count := "3", mda_count := "2",
    dev_size := "100", mda_used_count := "2", guid := "pw" }

def c3_state : LVMState :=
  { cache_lvs := false, stalepv := false, stalevg := false, freshlv := []
  , pvs := [("/dev/mapper/pw", .fresh c3_pv)], vgs := [("v", .fresh c3_vg)], lvs := [] }

def c5_pv : PV :=
  { uuid := "up5", name := "/dev/mapper/p5", size := "100", vg_name := "v5", vg_uuid := "uv5",
    pe_start := "0", pe_count := "25", pe_alloc_count := "3", mda_count := "2",
    dev_size := "100", mda_used_count := "2", guid := "p5" }

def c5_state : LVMState :=
  { cache_lvs := false, stalepv := false, stalevg := false, freshlv := []
  , pvs := [("/dev/mapper/p5", .fresh c5_pv)], vgs := [], lvs := [] }

def c7_pv : PV :=
  { uuid := "up7", name := "/dev/mapper/a", size := "100", vg_name := "v7", vg_uuid := "uv7",
    pe_start := "0", pe_count := "25", pe_alloc_count := "3", mda_count := "2",
    dev_size := "100", mda_used_count := "2", guid := "a" }

def c7_state : LVMState :=
  { cache_lvs := false, stalepv := false, stalevg := false, freshlv := []
  , pvs := [("/dev/mapper/a", .fresh c7_pv), ("b", .stale "b")], vgs := [], lvs := [] }

def c1_lineA : String := "uuida|a|wz--n-|100|50|4|25|12||1|1|2|1|/dev/mapper/pa"

def c1_lineB : String := "uuidb|b|wz--n-|100|50|4|25|12||1|1|2|1|/dev/mapper/pb"

def c1_state : LVMState :=
  { cache_lvs := false, stalepv := true, stalevg := true, freshlv := []
  , pvs := [], vgs := [("a", .stale "a"), ("b", .stale "b"), ("c", .stale "c")], lvs := [] }

def c1_err : LVMCommandError := ⟨5, [c1_lineA, c1_lineB], ["boom"]⟩

def c1_result : LVMState × List (String × VG) × Option PyErr :=
  reloadvgs c1_state [] [c1_lineA, c1_lineB] (some c1_err)

def c2_lv : LV :=
  { uuid := "lu", name := "l", vg_name := "v",
    attr := ⟨'-', 'w', 'i', '-', 'a', 'o', '-', '-'⟩, size := "100",
    seg_start_pe := "0", devices := "/dev/mapper/pa(0)", tags := [],
    writeable := true, opened := true, active := true }

def c2_state : LVMState :=
  { cache_lvs := false, stalepv := false, stalevg := false, freshlv := []
  , pvs := [], vgs := [], lvs := [(("v", "l"), .fresh c2_lv)] }

def c9_line : String := "pu9|/dev/mapper/p9|1000|vg9|vu9|0|10|0|2|1000|2"

def c9_state : LVMState :=
  { cache_lvs := false, stalepv := false, stalevg := false, freshlv := ["vg9"]
  , pvs := [], vgs := [("vg9", .stale "vg9")], lvs := [(("vg9", "l9"), .stale "l9")] }

def c10_line1 : String := "lu1|l1|v1|-wi-a-o-|100|0|/dev/mapper/pa(0)|T1,T2"

def c10_line2 : String := "lu2|l2|v2|-wi-a-o-|100|7|/dev/mapper/pa(0)|"

def c10_state : LVMState :=
  { cache_lvs := false, stalepv := true, stalevg := true, freshlv := ["old"]
  , pvs := [], vgs := [], lvs := [(("old", "x"), .stale "x")] }


-- ### Association-list lemmas

theorem alook_aupsert_self {κ α : Type} [DecidableEq κ] (k : κ) (v : α) (m : List (κ × α)) :
    alook k (aupsert k v m) = some v := by
  induction m with
  | nil => simp [aupsert, alook]
  | cons p rest ih =>
    obtain ⟨a, w⟩ := p
    by_cases h : a = k
    · simp [aupsert, h, alook]
    · simp [aupsert, h, alook, ih]

theorem alook_aupsert_ne {κ α : Type} [DecidableEq κ] {j k : κ} (h : j ≠ k) (v : α)
    (m : List (κ × α)) : alook j (aupsert k v m) = alook j m := by
  induction m with
  | nil =>
    have hne : ¬ k = j := fun hh => h hh.symm
    simp [aupsert, alook, hne]
  | cons p rest ih =>
    obtain ⟨a, w⟩ := p
    by_cases ha : a = k
    · subst ha
      have hne : ¬ a = j := fun hh => h hh.symm
      simp [aupsert, alook, hne]
    · simp [aupsert, ha, alook, ih]

theorem aupsert_self {κ α : Type} [DecidableEq κ] {k : κ} {v : α} {m : List (κ × α)}
    (h : alook k m = some v) : aupsert k v m = m := by
  induction m with
  | nil => simp [alook] at h
  | cons p rest ih =>
    obtain ⟨a, w⟩ := p
    by_cases ha : a = k
    · subst ha
      simp [alook] at h
      simp [aupsert, h]
    · simp [alook, ha] at h
      simp [aupsert, ha, ih h]

theorem alook_aerase_self {κ α : Type} [DecidableEq κ] (k : κ) (m : List (κ × α)) :
    alook k (aerase k m) = none := by
  induction m with
  | nil => simp [aerase, alook]
  | cons p rest ih =>
    obtain ⟨a, w⟩ := p
    by_cases ha : a = k
    · simp [aerase, ha, ih]
    · simp [aerase, ha, alook, ih]

theorem alook_aerase_ne {κ α : Type} [DecidableEq κ] {j k : κ} (h : j ≠ k)
    (m : List (κ × α)) : alook j (aerase k m) = alook j m := by
  induction m with
  | nil => simp [aerase]
  | cons p rest ih =>
    obtain ⟨a, w⟩ := p
    by_cases ha : a = k
    · subst ha
      have hne : ¬ a = j := fun hh => h hh.symm
      simp [aerase, alook, hne, ih]
    · simp [aerase, ha, alook, ih]

theorem alook_mem_keys {κ α : Type} [DecidableEq κ] {k : κ} {v : α} {m : List (κ × α)}
    (h : alook k m = some v) : k ∈ m.map Prod.fst := by
  induction m with
  | nil => simp [alook] at h
  | cons p rest ih =>
    obtain ⟨a, w⟩ := p
    by_cases ha : a = k
    · simp [ha]
    · simp [alook, ha] at h
      simp [ih h]

theorem alook_none_of_not_mem {κ α : Type} [DecidableEq κ] {k : κ} {m : List (κ × α)}
    (h : k ∉ m.map Prod.fst) : alook k m = none := by
  induction m with
  | nil => simp [alook]
  | cons p rest ih =>
    obtain ⟨a, w⟩ := p
    have h1 : ¬ a = k := by
      intro hh
      exact h (by simp [hh])
    have h2 : k ∉ rest.map Prod.fst := by
      intro hh
      exact h (by simp [hh])
    simp [alook, h1, ih h2]

theorem keys_aupsert_of_present {κ α : Type} [DecidableEq κ] {k : κ} {m : List (κ × α)}
    (h : (alook k m).isSome) (v : α) :
    (aupsert k v m).map Prod.fst = m.map Prod.fst := by
  induction m with
  | nil => simp [alook] at h
  | cons p rest ih =>
    obtain ⟨a, w⟩ := p
    by_cases ha : a = k
    · subst ha
      simp [aupsert]
    · simp [alook, ha] at h
      simp [aupsert, ha, ih h]

-- ### Stability of the mark-unreadable pass

theorem stale_step_keys {α : Type} (nm : α → String) (m : List (String × Entry α))
    (k : String) : (stale_step nm m k).map Prod.fst = m.map Prod.fst := by
  cases h : alook k m with
  | none => simp [stale_step, h]
  | some e =>
    cases hs : e.is_stale with
    | false => simp [stale_step, h, hs]
    | true =>
      have hk := keys_aupsert_of_present (k := k) (m := m) (by simp [h])
        (Entry.unreadable (e.entryName nm))
      simp [stale_step, h, hs, hk]

theorem applyStale_keys {α : Type} (nm : α → String) (m : List (String × Entry α))
    (ks : List String) : (applyStale nm m ks).map Prod.fst = m.map Prod.fst := by
  induction ks generalizing m with
  | nil => rfl
  | cons k rest ih =>
    calc (applyStale nm m (k :: rest)).map Prod.fst
        = (applyStale nm (stale_step nm m k) rest).map Prod.fst := rfl
      _ = (stale_step nm m k).map Prod.fst := ih _
      _ = m.map Prod.fst := stale_step_keys nm m k

/-- A mark-unreadable step never produces a `Stale` placeholder. -/
theorem alook_stale_step_stale {α : Type} {nm : α → String} {m : List (String × Entry α)}
    {j k n : String} (h : alook k (stale_step nm m j) = some (.stale n)) :
    alook k m = some (.stale n) := by
  cases hj : alook j m with
  | none => simpa [stale_step, hj] using h
  | some e =>
    cases hs : e.is_stale with
    | false => simpa [stale_step, hj, hs] using h
    | true =>
      by_cases hkj : k = j
      · subst hkj
        simp [stale_step, hj, hs, alook_aupsert_self] at h
      · simpa [stale_step, hj, hs, alook_aupsert_ne hkj] using h

theorem alook_applyStale_stale {α : Type} {nm : α → String} {m : List (String × Entry α)}
    {k n : String} {ks : List String}
    (h : alook k (applyStale nm m ks) = some (.stale n)) : alook k m = some (.stale n) := by
  induction ks generalizing m with
  | nil => exact h
  | cons j rest ih => exact alook_stale_step_stale (ih h)

/-- After its own step, a key no longer holds a `Stale` placeholder. -/
theorem alook_stale_step_self {α : Type} (nm : α → String) (m : List (String × Entry α))
    (k n : String) : alook k (stale_step nm m k) ≠ some (.stale n) := by
  cases h : alook k m with
  | none => simp [stale_step, h]
  | some e =>
    cases e with
    | fresh r => simp [stale_step, h, Entry.is_stale]
    | stale n' => simp [stale_step, h, Entry.is_stale, alook_aupsert_self]
    | unreadable n' => simp [stale_step, h, Entry.is_stale, alook_aupsert_self]

theorem alook_applyStale_mem {α : Type} (nm : α → String) {k n : String} :
    ∀ (ks : List String) (m : List (String × Entry α)), k ∈ ks →
      alook k (applyStale nm m ks) ≠ some (.stale n)
  | [], _, hk => absurd hk (by simp)
  | j :: rest, m, hk => by
    rcases List.mem_cons.mp hk with hkj | hmem
    · subst hkj
      intro hcon
      exact alook_stale_step_self nm m k n (alook_applyStale_stale hcon)
    · exact alook_applyStale_mem nm rest (stale_step nm m j) hmem

/-- A step at a key that does not hold a `Stale` placeholder is a no-op. -/
theorem stale_step_id {α : Type} (nm : α → String) (m : List (String × Entry α))
    {k : String} (h : ∀ n, alook k m ≠ some (.stale n)) : stale_step nm m k = m := by
  cases hl : alook k m with
  | none => simp [stale_step, hl]
  | some e =>
    cases e with
    | fresh r => simp [stale_step, hl, Entry.is_stale]
    | stale n => exact absurd hl (h n)
    | unreadable n =>
      have : aupsert k (Entry.unreadable n : Entry α) m = m := aupsert_self hl
      simp [stale_step, hl, Entry.is_stale, Entry.entryName, this]

theorem applyStale_id {α : Type} (nm : α → String) (m : List (String × Entry α))
    {ks : List String} (h : ∀ k ∈ ks, ∀ n, alook k m ≠ some (.stale n)) :
    applyStale nm m ks = m := by
  induction ks with
  | nil => rfl
  | cons j rest ih =>
    have hj : stale_step nm m j = m := stale_step_id nm m (h j (by simp))
    calc applyStale nm m (j :: rest) = applyStale nm (stale_step nm m j) rest := rfl
      _ = applyStale nm m rest := by rw [hj]
      _ = m := ih (fun k hk n => h k (by simp [hk]) n)

/-- Idempotence of the mark-unreadable pass over a fixed key list. -/
theorem applyStale_idem {α : Type} (nm : α → String) (m : List (String × Entry α))
    (ks : List String) : applyStale nm (applyStale nm m ks) ks = applyStale nm m ks :=
  applyStale_id nm _ (fun _ hk _ => alook_applyStale_mem nm ks m hk)

/-- The mark-unreadable pass leaves non-stale entries unchanged. -/
theorem alook_stale_step_not_stale {α : Type} {nm : α → String} {m : List (String × Entry α)}
    {j : String} {e : Entry α} (hj : alook j m = some e) (hs : e.is_stale = false)
    (k : String) : alook j (stale_step nm m k) = some e := by
  by_cases hkj : j = k
  · subst hkj
    cases e with
    | fresh r => simp [stale_step, hj, Entry.is_stale]
    | stale n => simp [Entry.is_stale] at hs
    | unreadable n => simp [Entry.is_stale] at hs
  · cases hl : alook k m with
    | none => simp [stale_step, hl, hj]
    | some e' =>
      cases hs' : e'.is_stale with
      | false => simp [stale_step, hl, hs', hj]
      | true => simp [stale_step, hl, hs', alook_aupsert_ne hkj, hj]

theorem alook_applyStale_not_stale {α : Type} {nm : α → String} {m : List (String × Entry α)}
    {j : String} {e : Entry α} (hj : alook j m = some e) (hs : e.is_stale = false)
    (ks : List String) : alook j (applyStale nm m ks) = some e := by
  induction ks generalizing m with
  | nil => exact hj
  | cons k rest ih => exact ih (alook_stale_step_not_stale hj hs k)

/-- The mark-unreadable pass adds no entries. -/
theorem alook_applyStale_none {α : Type} {nm : α → String} {m : List (String × Entry α)}
    {j : String} (hj : alook j m = none) (ks : List String) :
    alook j (applyStale nm m ks) = none := by
  induction ks generalizing m with
  | nil => exact hj
  | cons k rest ih =>
    refine ih ?_
    by_cases hkj : j = k
    · subst hkj
      simp [stale_step, hj]
    · cases hl : alook k m with
      | none => simp [stale_step, hl, hj]
      | some e' =>
        cases hs' : e'.is_stale with
        | false => simp [stale_step, hl, hs', hj]
        | true => simp [stale_step, hl, hs', alook_aupsert_ne hkj, hj]

/-- The map component of `_update_stale_pvs_locked`'s loop is `applyStale`. -/
theorem update_stale_pvs_keys_fst (ks : List String) (pvs updated : List (String × Entry PV)) :
    (update_stale_pvs_keys pvs updated ks).1 = applyStale PV.name pvs ks := by
  induction ks generalizing pvs updated with
  | nil => rfl
  | cons k rest ih =>
    cases hl : alook k pvs with
    | none => simp [update_stale_pvs_keys, hl, applyStale, List.foldl, stale_step, ih]
    | some e =>
      cases hs : e.is_stale with
      | false => simp [update_stale_pvs_keys, hl, hs, applyStale, List.foldl, stale_step, ih]
      | true => simp [update_stale_pvs_keys, hl, hs, applyStale, List.foldl, stale_step, ih]

/-- The state component of `_update_stale_pvs_locked`. -/
theorem update_stale_pvs_locked_fst (st : LVMState) (names : List String) :
    (update_stale_pvs_locked st names).1 =
      {st with pvs :=
          applyStale PV.name st.pvs (if names.isEmpty then st.pvs.map Prod.fst else names)} := by
  simp [update_stale_pvs_locked, update_stale_pvs_keys_fst]


/-- Unfolding of `run_command` when the first attempt fails. -/
theorem run_command_eq_of_error {α : Type} (devicesArg cached refreshed : List String)
    (polld : Bool) (runner : List String → Bool → Except LVMCommandError α)
    (e : LVMCommandError)
    (h : runner (if devicesArg.isEmpty then cached else devicesArg) polld = .error e) :
    run_command devicesArg cached refreshed polld runner =
      if refreshed ≠ (if devicesArg.isEmpty then cached else devicesArg) ∨ polld = false then
        match runner refreshed true with
        | .ok out => ⟨.ok out, 2, true⟩
        | .error e2 => ⟨.error e2, 2, true⟩
      else ⟨.error e, 1, true⟩ := by
  simp only [run_command]
  rw [h]

-- ### Claim theorems

/-- C3 (counterexample): at a concrete state holding a fresh VG `v` and a
fresh PV, a failing `vgreduce` in `reduceVG` does not set the VG or the PV
entry to `Stale`, contradicting the claim that the invalidation of the
potentially-affected keys occurs even when the LVM command returns an
error. -/
theorem reduceVG_error_no_invalidation_counterexample :
    ¬ (alook "v" (reduceVG c3_state "v" "pw" (some ⟨5, [], []⟩)).2.vgs
         = some (.stale "v") ∧
       alook "/dev/mapper/pw" (reduceVG c3_state "v" "pw" (some ⟨5, [], []⟩)).2.pvs
         = some (.stale "/dev/mapper/pw")) := by
  decide

/-- C3 (amended): in `createVG` and `reduceVG` the invalidation of the
listed PVs and of the VG runs only in the success (`else`) branch; on a
command error `reduceVG` raises with the cache state unchanged, and a
`vgcreate` error leaves only the PV invalidation performed by `_initpvs`'s
`finally` (the VG map is untouched). -/
theorem mutation_invalidation_success_only (st : LVMState) (vgName device : String)
    (devices : List String) (e e2 : LVMCommandError) :
    (reduceVG st vgName device (some e) = (.error .volumeGroupReduceError, st)) ∧
    (alook vgName (reduceVG st vgName device none).2.vgs = some (.stale vgName)) ∧
    (alook (fqpvname device) (reduceVG st vgName device none).2.pvs
      = some (.stale (fqpvname device))) ∧
    (createVG st vgName devices none none (some e2)
      = (.error .volumeGroupCreateError, invalidatepvs st (devices.map fqpvname))) ∧
    ((createVG st vgName devices none none (some e2)).2.vgs = st.vgs) := by
  refine ⟨rfl, ?_, ?_, rfl, rfl⟩
  · simp [reduceVG, invalidatevgs, invalidatepvs, alook_aupsert_self]
  · simp [reduceVG, invalidatevgs, invalidatepvs, alook_aupsert_self]

/-- C5: `getAllPvs()` with `stalepv = false` and no stale entry in the PV
map issues zero subprocess invocations, records exactly one hit and no
miss, and returns all cached PV records. -/
theorem getAllPvs_bulk_skip (st : LVMState) (out : List String)
    (error : Option LVMCommandError) (h1 : st.stalepv = false)
    (h2 : ∀ p ∈ st.pvs, p.2.is_stale = false) :
    getAllPvs st out error = ⟨.ok (st.pvs.map Prod.snd), st, 1, 0, 0⟩ := by
  have hf : st.pvs.filterMap
      (fun p => if p.2.is_stale then some (p.2.entryName PV.name) else none) = [] := by
    rw [List.filterMap_eq_nil_iff]
    intro p hp
    simp [h2 p hp]
  simp [getAllPvs, h1, hf]

/-- Witness for C5 at a concrete one-PV cache. -/
theorem getAllPvs_bulk_skip_witness :
    getAllPvs c5_state [] none = ⟨.ok [.fresh c5_pv], c5_state, 1, 0, 0⟩ :=
  getAllPvs_bulk_skip c5_state [] none rfl (by decide)

/-- C7: invalidating a key twice leaves the same state as invalidating it
once (the entry being the `Stale` placeholder for that name); the
mark-unreadable pass is idempotent, changes only entries that are present
and stale, and leaves non-stale entries and absent keys unchanged. -/
theorem invalidate_and_mark_unreadable_idempotent (st : LVMState) (k : String)
    (names : List String) :
    invalidatepvs (invalidatepvs st [k]) [k] = invalidatepvs st [k] ∧
    alook k (invalidatepvs st [k]).pvs = some (.stale k) ∧
    (update_stale_pvs_locked (update_stale_pvs_locked st names).1 names).1 =
      (update_stale_pvs_locked st names).1 ∧
    (∀ j e, alook j st.pvs = some e → e.is_stale = false →
      alook j (update_stale_pvs_locked st names).1.pvs = some e) ∧
    (∀ j, alook j st.pvs = none → alook j (update_stale_pvs_locked st names).1.pvs = none) := by
  have hself : aupsert k (Entry.stale k : Entry PV) (aupsert k (.stale k) st.pvs)
      = aupsert k (.stale k) st.pvs := aupsert_self (alook_aupsert_self k _ st.pvs)
  refine ⟨?_, ?_, ?_, ?_, ?_⟩
  · simp [invalidatepvs, hself]
  · simp [invalidatepvs, alook_aupsert_self]
  · rw [update_stale_pvs_locked_fst, update_stale_pvs_locked_fst]
    by_cases hne : names.isEmpty = true
    · simp only [if_pos hne]
      rw [applyStale_keys, applyStale_idem]
    · simp only [if_neg hne]
      rw [applyStale_idem]
  · intro j e hj hs
    rw [update_stale_pvs_locked_fst]
    exact alook_applyStale_not_stale hj hs _
  · intro j hj
    rw [update_stale_pvs_locked_fst]
    exact alook_applyStale_none hj _

/-- Witness for C7: the mark-unreadable pass at a concrete cache leaves the
fresh entry `a` unchanged. -/
theorem invalidate_and_mark_unreadable_idempotent_witness :
    alook "/dev/mapper/a" (update_stale_pvs_locked c7_state ["b"]).1.pvs
      = some (.fresh c7_pv) :=
  (invalidate_and_mark_unreadable_idempotent c7_state "b" ["b"]).2.2.2.1
    "/dev/mapper/a" (.fresh c7_pv) (by decide) (by decide)

/-- C8: `CacheStats.info` reports the hits and misses counters and never
divides by zero: the ratio is `0` when `hits + misses = 0` and
`100 * hits / (hits + misses)` otherwise. -/
theorem cacheStats_info_guarded_division (s : CacheStats) :
    (s.info.1 = s.hits ∧ s.info.2.1 = s.misses) ∧
    (s.hits + s.misses = 0 → s.info.2.2 = 0) ∧
    (0 < s.hits + s.misses →
      s.info.2.2 = 100 * (s.hits : ℚ) / ((s.hits : ℚ) + (s.misses : ℚ))) := by
  refine ⟨⟨rfl, rfl⟩, ?_, ?_⟩
  · intro h
    simp [CacheStats.info, h]
  · intro h
    simp [CacheStats.info, h]

/-- Witness for C8 at `hits = 3`, `misses = 1`. -/
theorem cacheStats_info_guarded_division_witness :
    (CacheStats.info ⟨3, 1⟩).2.2 = 100 * ((3 : Nat) : ℚ) / (((3 : Nat) : ℚ) + ((1 : Nat) : ℚ)) :=
  (cacheStats_info_guarded_division ⟨3, 1⟩).2.2 (by decide)

/-- C4: `run_command` returns the first attempt's output when it succeeds;
on a first-attempt failure the device cache is invalidated and the list
re-queried, and the command is retried exactly once if and only if the
refreshed device set differs from the set used in the first attempt or
`use_lvmpolld` was false — otherwise the first error is propagated. -/
theorem run_command_retry_policy {α : Type} (devicesArg cached refreshed : List String)
    (polld : Bool) (runner : List String → Bool → Except LVMCommandError α) :
    (∀ out, runner (if devicesArg.isEmpty then cached else devicesArg) polld = .ok out →
       run_command devicesArg cached refreshed polld runner = ⟨.ok out, 1, false⟩) ∧
    (∀ e, runner (if devicesArg.isEmpty then cached else devicesArg) polld = .error e →
      (run_command devicesArg cached refreshed polld runner).invalidatedDevices = true ∧
      (refreshed = (if devicesArg.isEmpty then cached else devicesArg) ∧ polld = true →
        run_command devicesArg cached refreshed polld runner = ⟨.error e, 1, true⟩) ∧
      (¬ (refreshed = (if devicesArg.isEmpty then cached else devicesArg) ∧ polld = true) →
        (run_command devicesArg cached refreshed polld runner).attempts = 2 ∧
        (run_command devicesArg cached refreshed polld runner).result = runner refreshed true)) := by
  constructor
  · intro out h
    simp only [run_command]
    rw [h]
  · intro e h
    by_cases hc : refreshed ≠ (if devicesArg.isEmpty then cached else devicesArg)
        ∨ polld = false
    · have hnc : ¬ (refreshed = (if devicesArg.isEmpty then cached else devicesArg)
          ∧ polld = true) := by
        rcases hc with h1 | h1
        · exact fun hh => h1 hh.1
        · intro hh
          rw [hh.2] at h1
          cases h1
      have hrc := run_command_eq_of_error devicesArg cached refreshed polld runner e h
      refine ⟨?_, fun hcc => absurd hcc hnc, fun _ => ?_⟩
      · rw [hrc, if_pos hc]
        cases h2 : runner refreshed true with
        | ok out => rfl
        | error e2 => rfl
      · constructor
        · rw [hrc, if_pos hc]
          cases h2 : runner refreshed true with
          | ok out => rfl
          | error e2 => rfl
        · rw [hrc, if_pos hc]
          cases h2 : runner refreshed true with
          | ok out => rfl
          | error e2 => rfl
    · have hcc : refreshed = (if devicesArg.isEmpty then cached else devicesArg)
          ∧ polld = true := by
        push_neg at hc
        refine ⟨hc.1, ?_⟩
        cases hp : polld
        · exact absurd hp hc.2
        · rfl
      have hrc := run_command_eq_of_error devicesArg cached refreshed polld runner e h
      refine ⟨?_, fun _ => ?_, fun hn => absurd hcc hn⟩
      · rw [hrc, if_neg hc]
      · rw [hrc, if_neg hc]

/-- Witness for C4: an always-failing runner together with a refreshed
device list that differs from the first attempt's is retried once. -/
theorem run_command_retry_policy_witness :
    (run_command ["d1"] [] ["d2"] true
      (fun _ _ => (.error ⟨5, [], []⟩ : Except LVMCommandError (List String)))).attempts = 2 ∧
    (run_command ["d1"] [] ["d2"] true
      (fun _ _ => (.error ⟨5, [], []⟩ : Except LVMCommandError (List String)))).result
      = .error ⟨5, [], []⟩ := by
  have h := ((run_command_retry_policy ["d1"] [] ["d2"] true
      (fun _ _ => (.error ⟨5, [], []⟩ : Except LVMCommandError (List String)))).2
      ⟨5, [], []⟩ rfl).2.2 (by decide)
  exact ⟨h.1, h.2⟩

/-- C6: splitting an output line on `|` must yield exactly 11 fields for
`pvs`, 14 for `vgs` and 8 for `lvs`; any other field count makes the update
raise `InvalidOutputLine`, and no cache entry is created from such a line
(for a `vgs` report the whole update leaves the state untouched, since the
bad line is found while grouping rows before any cache mutation). -/
theorem output_line_field_counts :
    PV_FIELDS_LEN = 11 ∧ VG_FIELDS_LEN = 14 ∧ LV_FIELDS_LEN = 8 ∧
    (∀ (pvs updated : List (String × Entry PV)) (line : String) (rest : List String),
      (splitLine line).length ≠ PV_FIELDS_LEN →
      updatepvs_lines pvs updated (line :: rest)
        = (pvs, updated, some (.invalidOutputLine "pvs" line))) ∧
    (∀ (groups : List (String × VGRow)) (line : String) (rest : List String),
      (splitLine line).length ≠ VG_FIELDS_LEN →
      parse_vg_lines groups (line :: rest) = .error (.invalidOutputLine "vgs" line)) ∧
    (∀ (st : LVMState) (line : String) (rest vg_names : List String),
      (splitLine line).length ≠ VG_FIELDS_LEN →
      updatevgs_locked st (line :: rest) vg_names
        = (st, [], some (.invalidOutputLine "vgs" line))) ∧
    (∀ (lvs updated : List ((String × String) × Entry LV)) (line : String) (rest : List String),
      (splitLine line).length ≠ LV_FIELDS_LEN →
      updatelvs_lines lvs updated (line :: rest)
        = (lvs, updated, some (.invalidOutputLine "lvs" line))) := by
  have hparse : ∀ (groups : List (String × VGRow)) (line : String) (rest : List String),
      (splitLine line).length ≠ VG_FIELDS_LEN →
      parse_vg_lines groups (line :: rest) = .error (.invalidOutputLine "vgs" line) := by
    intro groups line rest h
    simp only [parse_vg_lines]
    rw [if_neg h]
  refine ⟨by decide, by decide, by decide, ?_, hparse, ?_, ?_⟩
  · intro pvs updated line rest h
    simp only [updatepvs_lines]
    rw [if_neg h]
  · intro st line rest vg_names h
    simp only [updatevgs_locked]
    rw [hparse [] line rest h]
  · intro lvs updated line rest h
    simp only [updatelvs_lines]
    rw [if_neg h]

/-- Witness for C6: a two-field line makes the PV update stop with
`InvalidOutputLine` and an unchanged map. -/
theorem output_line_field_counts_witness :
    updatepvs_lines ([] : List (String × Entry PV)) [] ["a|b"]
      = ([], [], some (.invalidOutputLine "pvs" "a|b")) :=
  output_line_field_counts.2.2.2.1 [] [] "a|b" [] (by decide)

/-- The `updated_lvs` dict built by the per-line LV update loop holds only
freshly parsed records. -/
theorem updatelvs_lines_updated_fresh :
    ∀ (lines : List String) (lvs updated : List ((String × String) × Entry LV)),
      (∀ k en, alook k updated = some en → en.is_stale = false) →
      ∀ k en, alook k (updatelvs_lines lvs updated lines).2.1 = some en →
        en.is_stale = false
  | [], _, _, hinv => hinv
  | line :: rest, lvs, updated, hinv => by
    by_cases hlen : (splitLine line).length = LV_FIELDS_LEN
    · cases hf : LV.fromFields (splitLine line) with
      | none =>
        simp only [updatelvs_lines, if_pos hlen, hf]
        exact hinv
      | some lv =>
        by_cases hseg : lv.seg_start_pe = "0"
        · simp only [updatelvs_lines, if_pos hlen, hf, if_pos hseg]
          refine updatelvs_lines_updated_fresh rest _ _ ?_
          intro k en hk
          by_cases hkey : k = (lv.vg_name, lv.name)
          · subst hkey
            rw [alook_aupsert_self] at hk
            cases hk
            rfl
          · rw [alook_aupsert_ne hkey] at hk
            exact hinv k en hk
        · simp only [updatelvs_lines, if_pos hlen, hf, if_neg hseg]
          exact updatelvs_lines_updated_fresh rest _ _ hinv
    · simp only [updatelvs_lines, if_neg hlen]
      exact hinv

/-- A successful `_reload_single_lv` returns a freshly parsed (non-stale)
entry. -/
theorem reload_single_lv_ok_fresh (st : LVMState) (vg lv : String) (out : List String)
    (error : Option LVMCommandError) (e : Entry LV)
    (h : (reload_single_lv st vg lv out error).1 = .ok e) : e.is_stale = false := by
  cases error with
  | some err => simp [reload_single_lv] at h
  | none =>
    rcases hu : updatelvs_lines st.lvs [] out with ⟨lvs1, updated, errOpt⟩
    cases errOpt with
    | some e2 => simp [reload_single_lv, updatelvs_locked, hu] at h
    | none =>
      cases hl : alook (vg, lv) updated with
      | none => simp [reload_single_lv, updatelvs_locked, hu, hl] at h
      | some en =>
        have hee : en = e := by
          simpa [reload_single_lv, updatelvs_locked, hu, hl] using h
        subst hee
        refine updatelvs_lines_updated_fresh out st.lvs []
          (by intro k x hx; simp [alook] at hx) (vg, lv) en ?_
        rw [hu]
        exact hl

/-- The visibility filter of `getAllLvs` keeps only non-stale entries. -/
theorem lvVisible_not_stale {vg : String} {e : Entry LV} (h : lvVisible vg e = true) :
    e.is_stale = false := by
  cases e with
  | fresh lv => rfl
  | stale n => simp [lvVisible] at h
  | unreadable n => simp [lvVisible] at h

/-- C2: `getLv` never hands a `Stale` or `Unreadable` entry to the caller —
every non-error result is a freshly parsed record (on a failed reload it
raises `LogicalVolumeDoesNotExistError` instead of returning the demoted
placeholder, contradicting its docstring) — and `getAllLvs` never returns
one either. -/
theorem getLv_and_getAllLvs_never_return_stale :
    (∀ (st : LVMState) (vg lv : String) (out : List String)
        (error : Option LVMCommandError) (e : Entry LV),
      (getLv st vg lv out error).1 = .ok e → e.is_stale = false) ∧
    (∀ (st : LVMState) (vg : String) (out : List String)
        (error : Option LVMCommandError) (l : List (Entry LV)),
      (getAllLvs st vg out error).1 = .ok l → ∀ e ∈ l, e.is_stale = false) := by
  constructor
  · intro st vg lv out error e h
    cases ha : alook (vg, lv) st.lvs with
    | some en =>
      cases hs : en.is_stale with
      | false =>
        have hee : en = e := by simpa [getLv, ha, hs] using h
        rw [← hee]
        exact hs
      | true =>
        rcases hr : reload_single_lv st vg lv out error with ⟨r, st1⟩
        have hre : r = .ok e := by simpa [getLv, ha, hs, hr] using h
        exact reload_single_lv_ok_fresh st vg lv out error e (by rw [hr, hre])
    | none =>
      rcases hr : reload_single_lv st vg lv out error with ⟨r, st1⟩
      have hre : r = .ok e := by simpa [getLv, ha, hr] using h
      exact reload_single_lv_ok_fresh st vg lv out error e (by rw [hr, hre])
  · intro st vg out error l h e he
    by_cases hn : lvs_needs_reload st vg = true
    · rcases hrl : reloadlvs st vg out error with ⟨st1, updated, errOpt⟩
      cases errOpt with
      | some e2 => simp [getAllLvs, hn, hrl] at h
      | none =>
        have hl : (updated.map Prod.snd).filter (lvVisible vg) = l := by
          simpa [getAllLvs, hn, hrl] using h
        rw [← hl] at he
        exact lvVisible_not_stale (List.mem_filter.mp he).2
    · have hl : (st.lvs.map Prod.snd).filter (lvVisible vg) = l := by
        simpa [getAllLvs, hn] using h
      rw [← hl] at he
      exact lvVisible_not_stale (List.mem_filter.mp he).2

-- ### C1: bulk VG reload on command error

/-- After the insertion loop, every name in the `updatedVGs` dict maps to
its fresh record in the cache map. -/
theorem insert_vgs_inv :
    ∀ (rows : List VGRow) (vgs : List (String × Entry VG)) (updated : List (String × VG)),
      (∀ n vg, alook n updated = some vg → alook n vgs = some (.fresh vg)) →
      ∀ n vg, alook n (insert_vgs vgs updated rows).2.1 = some vg →
        alook n (insert_vgs vgs updated rows).1 = some (.fresh vg)
  | [], _, _, hinv => hinv
  | row :: rest, vgs, updated, hinv => by
    cases hf : VG.fromlvm row with
    | none =>
      simp only [insert_vgs, hf]
      exact hinv
    | some vg0 =>
      by_cases hpc : pyParsesInt vg0.pv_count = true
      case neg =>
        simp only [insert_vgs, hf, if_neg hpc]
        exact hinv
      simp only [insert_vgs, hf, if_pos hpc]
      refine insert_vgs_inv rest _ _ ?_
      intro n vg hn
      by_cases hkey : n = vg0.name
      · subst hkey
        rw [alook_aupsert_self] at hn
        cases hn
        rw [alook_aupsert_self]
      · rw [alook_aupsert_ne hkey] at hn
        rw [alook_aupsert_ne hkey]
        exact hinv n vg hn

theorem alook_removeStaleVgStep_ne {n k : String} (h : n ≠ k) (s : LVMState) :
    alook n (removeStaleVgStep s k).vgs = alook n s.vgs := by
  by_cases hp : (alook k s.vgs).isSome
  · simp [removeStaleVgStep, hp, alook_aerase_ne h]
  · simp [removeStaleVgStep, hp]

theorem alook_removeStaleVgStep_self (s : LVMState) (k : String) :
    alook k (removeStaleVgStep s k).vgs = none := by
  cases hl : alook k s.vgs with
  | none => simp [removeStaleVgStep, hl]
  | some v => simp [removeStaleVgStep, hl, alook_aerase_self]

theorem alook_removeFold_of_not_mem :
    ∀ (ks : List String) (s : LVMState) (n : String), n ∉ ks →
      alook n (ks.foldl removeStaleVgStep s).vgs = alook n s.vgs
  | [], _, _, _ => rfl
  | k :: rest, s, n, h => by
    have h1 : n ≠ k := fun hh => h (by simp [hh])
    have h2 : n ∉ rest := fun hh => h (by simp [hh])
    rw [List.foldl_cons, alook_removeFold_of_not_mem rest _ n h2,
      alook_removeStaleVgStep_ne h1]

theorem alook_removeFold_none :
    ∀ (ks : List String) (s : LVMState) (n : String), alook n s.vgs = none →
      alook n (ks.foldl removeStaleVgStep s).vgs = none
  | [], _, _, h => h
  | k :: rest, s, n, h => by
    rw [List.foldl_cons]
    refine alook_removeFold_none rest _ n ?_
    by_cases hnk : n = k
    · subst hnk
      exact alook_removeStaleVgStep_self s n
    · rw [alook_removeStaleVgStep_ne hnk]
      exact h

theorem alook_removeFold_mem :
    ∀ (ks : List String) (s : LVMState) (n : String), n ∈ ks →
      alook n (ks.foldl removeStaleVgStep s).vgs = none
  | [], _, _, h => absurd h (by simp)
  | k :: rest, s, n, h => by
    rw [List.foldl_cons]
    by_cases hnk : n = k
    · subst hnk
      exact alook_removeFold_none rest _ n (alook_removeStaleVgStep_self s n)
    · rcases List.mem_cons.mp h with h1 | h1
      · exact absurd h1 hnk
      · exact alook_removeFold_mem rest _ n h1

/-- After a bulk `_updatevgs_locked` (no names) that raised no exception,
the cache holds exactly the VGs of the `updatedVGs` dict, each fresh. -/
theorem updatevgs_locked_bulk (st : LVMState) (out : List String)
    (st2 : LVMState) (updated : List (String × VG))
    (h : updatevgs_locked st out [] = (st2, updated, none)) :
    (∀ n vg, alook n updated = some vg → alook n st2.vgs = some (.fresh vg)) ∧
    (∀ n, alook n updated = none → alook n st2.vgs = none) := by
  cases hp : parse_vg_lines [] out with
  | error e => simp [updatevgs_locked, hp] at h
  | ok groups =>
    rcases hi : insert_vgs st.vgs [] (groups.map Prod.snd) with ⟨vgs1, upd, errOpt⟩
    cases errOpt with
    | some e => simp [updatevgs_locked, hp, hi] at h
    | none =>
      have hx : removeStaleVgs {st with vgs := vgs1} upd [] = st2 ∧ upd = updated := by
        simpa [updatevgs_locked, hp, hi] using h
      obtain ⟨hst2, hupd⟩ := hx
      subst hupd
      have hrw : removeStaleVgs {st with vgs := vgs1} upd []
          = ((vgs1.map Prod.fst).filter (fun m => (alook m upd).isNone)).foldl
              removeStaleVgStep {st with vgs := vgs1} := rfl
      constructor
      · intro n vg hn
        have hbase : ∀ (n : String) (vg : VG), alook n ([] : List (String × VG)) = some vg →
            alook n st.vgs = some (.fresh vg) := by
          intro n vg hx
          simp [alook] at hx
        have hiv := insert_vgs_inv (groups.map Prod.snd) st.vgs [] hbase n vg
        rw [hi] at hiv
        have hv1 : alook n vgs1 = some (.fresh vg) := hiv hn
        have hmem : n ∉ (vgs1.map Prod.fst).filter (fun m => (alook m upd).isNone) := by
          intro hmm
          have h2 := (List.mem_filter.mp hmm).2
          rw [hn] at h2
          simp at h2
        rw [← hst2, hrw, alook_removeFold_of_not_mem _ _ n hmem]
        exact hv1
      · intro n hn
        cases hv : alook n vgs1 with
        | none =>
          rw [← hst2, hrw]
          exact alook_removeFold_none _ _ n hv
        | some en =>
          have hmem : n ∈ (vgs1.map Prod.fst).filter (fun m => (alook m upd).isNone) := by
            refine List.mem_filter.mpr ⟨alook_mem_keys hv, ?_⟩
            simp [hn]
          rw [← hst2, hrw]
          exact alook_removeFold_mem _ _ n hmem

/-- C1 (amended): on a bulk VG reload with a failing command but usable
stdout, every VG parsed from stdout ends up Fresh in the map, every other
name — including previously-known stale VGs absent from the output — is
removed from the map (rather than being kept as Unreadable), and the
`stalevg` flag is cleared despite the error. -/
theorem bulk_vg_reload_error_behavior (st : LVMState) (e : LVMCommandError)
    (out : List String) (st1 : LVMState) (updated : List (String × VG))
    (h : reloadvgs st [] out (some e) = (st1, updated, none)) :
    (∀ n vg, alook n updated = some vg → alook n st1.vgs = some (.fresh vg)) ∧
    (∀ n, alook n updated = none → alook n st1.vgs = none) ∧
    st1.stalevg = false := by
  rcases hu : updatevgs_locked (update_stale_vgs_locked st []) out [] with ⟨st2, upd, errOpt⟩
  cases errOpt with
  | some e2 => simp [reloadvgs, hu] at h
  | none =>
    have hx : ({st2 with stalevg := false} : LVMState) = st1 ∧ upd = updated := by
      simpa [reloadvgs, hu] using h
    obtain ⟨h1, h2⟩ := hx
    subst h2
    have hb := updatevgs_locked_bulk _ out st2 upd hu
    rw [← h1]
    exact ⟨fun n vg hn => hb.1 n vg hn, fun n hn => hb.2 n hn, rfl⟩

/-- C1 (counterexample): in the spec's scenario — `stalevg` set, previously
known stale VGs `a`, `b`, `c`, and a failing `vgs` whose stdout reports
only `a` and `b` — the claim's predicted outcome (`c` demoted to Unreadable
and still in the map, `stalevg` still true) is false: `c` is removed and
`stalevg` is cleared. -/
theorem bulk_vg_reload_error_counterexample :
    ¬ (alook "c" (getAllVgs c1_state [c1_lineA, c1_lineB] (some c1_err)).state.vgs
         = some (.unreadable "c") ∧
       (getAllVgs c1_state [c1_lineA, c1_lineB] (some c1_err)).state.stalevg = true) := by
  decide

/-- Witness for C1 (amended) at the spec's concrete scenario. -/
theorem bulk_vg_reload_error_behavior_witness :
    (∀ n vg, alook n c1_result.2.1 = some vg →
      alook n c1_result.1.vgs = some (.fresh vg)) ∧
    (∀ n, alook n c1_result.2.1 = none → alook n c1_result.1.vgs = none) ∧
    c1_result.1.stalevg = false :=
  bulk_vg_reload_error_behavior c1_state c1_err [c1_lineA, c1_lineB]
    c1_result.1 c1_result.2.1 (by decide)

/-- Witness for C2: a fresh cached LV is served as-is (and is not stale). -/
theorem getLv_never_returns_stale_witness :
    Entry.is_stale (Entry.fresh c2_lv : Entry LV) = false :=
  getLv_and_getAllLvs_never_return_stale.1 c2_state "v" "l" [] none (.fresh c2_lv) rfl

-- ### C9: movePV with nothing to move

theorem isPrefixChars_self_append (l rest : List Char) : isPrefixChars l (l ++ rest) = true := by
  induction l with
  | nil => rfl
  | cons c cs ih => simp [isPrefixChars, ih]

theorem fqpvname_idem (s : String) : fqpvname (fqpvname s) = fqpvname s := by
  by_cases h : isPrefixChars "/dev/mapper".data s.data = true
  · have hs : fqpvname s = s := by rw [fqpvname, if_pos h]
    rw [hs]
    exact hs
  · have h2 : isPrefixChars "/dev/mapper".data ("/dev/mapper/" ++ s).data = true := by
      have hdata : ("/dev/mapper/" ++ s).data = "/dev/mapper/".data ++ s.data := rfl
      rw [hdata]
      have hsplit2 : ("/dev/mapper/" : String).data = ("/dev/mapper" : String).data ++ ['/'] := by
        decide
      rw [hsplit2, List.append_assoc]
      exact isPrefixChars_self_append _ _
    have hs : fqpvname s = "/dev/mapper/" ++ s := by rw [fqpvname, if_neg h]
    rw [hs, fqpvname, if_pos h2]

theorem fqpvname_ne_unknown (s : String) : fqpvname s ≠ UNKNOWN := by
  by_cases h : isPrefixChars "/dev/mapper".data s.data = true
  · intro hcon
    rw [fqpvname, if_pos h] at hcon
    rw [hcon] at h
    exact absurd h (by decide)
  · intro hcon
    rw [fqpvname, if_neg h] at hcon
    have hdata : ("/dev/mapper/" ++ s).data = "/dev/mapper/".data ++ s.data := rfl
    have hlen := congrArg (fun t : String => t.data.length) hcon
    simp only [hdata, List.length_append] at hlen
    have h1 : ("/dev/mapper/" : String).data.length = 12 := by decide
    have h2 : (UNKNOWN : String).data.length = 9 := by decide
    rw [h1, h2] at hlen
    omega

/-- A one-line `pvs` report with the right field count and a known PV name
upserts exactly that PV. -/
theorem updatepvs_lines_single (pvs updated : List (String × Entry PV)) (line : String)
    (hlen : (splitLine line).length = PV_FIELDS_LEN)
    (hnu : ¬ (PV.fromFields (splitLine line)).name = UNKNOWN) :
    updatepvs_lines pvs updated [line]
      = (aupsert (PV.fromFields (splitLine line)).name
           (.fresh (PV.fromFields (splitLine line))) pvs,
         aupsert (PV.fromFields (splitLine line)).name
           (.fresh (PV.fromFields (splitLine line))) updated,
         none) := by
  simp only [updatepvs_lines, if_pos hlen, if_neg hnu]

/-- C9: when the freshly reloaded source PV reports `pe_alloc_count = "0"`,
`movePV` returns successfully without invoking `pvmove`; the only cache
change is that the source PV entry went Stale and was then refreshed by the
internal `getPV` lookup — the VG and LV maps are untouched and every other
PV entry is unchanged. -/
theorem movePV_no_data_skips_pvmove (st : LVMState) (vgName src_device : String)
    (line uuid size vgn vgu pes pec mdac devs mdauc : String)
    (pvmove_error : Option LVMCommandError)
    (hsplit : splitLine line
      = [uuid, fqpvname src_device, size, vgn, vgu, pes, pec, "0", mdac, devs, mdauc]) :
    movePV st vgName src_device [line] none pvmove_error
      = (.ok (), {st with pvs := (aupsert (fqpvname src_device)
          (.fresh (PV.fromFields (splitLine line)))
          (aupsert (fqpvname src_device) (.stale (fqpvname src_device)) st.pvs))}, false) ∧
    (movePV st vgName src_device [line] none pvmove_error).2.1.vgs = st.vgs ∧
    (movePV st vgName src_device [line] none pvmove_error).2.1.lvs = st.lvs ∧
    alook (fqpvname src_device)
        (movePV st vgName src_device [line] none pvmove_error).2.1.pvs
      = some (.fresh (PV.fromFields (splitLine line))) ∧
    (∀ j, j ≠ fqpvname src_device →
      alook j (movePV st vgName src_device [line] none pvmove_error).2.1.pvs
        = alook j st.pvs) := by
  have hidem : fqpvname (fqpvname src_device) = fqpvname src_device := fqpvname_idem _
  have hlen : (splitLine line).length = PV_FIELDS_LEN := by
    rw [hsplit]
    rfl
  have hname : (PV.fromFields (splitLine line)).name = fqpvname src_device := by
    rw [hsplit]
    rfl
  have halloc : (PV.fromFields (splitLine line)).pe_alloc_count = "0" := by
    rw [hsplit]
    rfl
  have hnu : ¬ (PV.fromFields (splitLine line)).name = UNKNOWN := by
    rw [hname]
    exact fqpvname_ne_unknown src_device
  have hlines := updatepvs_lines_single
    (aupsert (fqpvname src_device) (.stale (fqpvname src_device)) st.pvs) [] line hlen hnu
  rw [hname] at hlines
  have hupd : updatepvs_locked
      {st with pvs := aupsert (fqpvname src_device) (.stale (fqpvname src_device)) st.pvs}
      [line] [fqpvname src_device]
      = ({st with pvs := (aupsert (fqpvname src_device)
            (.fresh (PV.fromFields (splitLine line)))
            (aupsert (fqpvname src_device) (.stale (fqpvname src_device)) st.pvs))},
         [(fqpvname src_device, .fresh (PV.fromFields (splitLine line)))], none) := by
    simp only [updatepvs_locked]
    rw [hlines]
    simp [removeStalePvs, alook, aupsert]
  have hrel : reload_single_pv
      {st with pvs := aupsert (fqpvname src_device) (.stale (fqpvname src_device)) st.pvs}
      (fqpvname src_device) [line] none
      = (.ok (.fresh (PV.fromFields (splitLine line))),
         {st with pvs := (aupsert (fqpvname src_device)
            (.fresh (PV.fromFields (splitLine line)))
            (aupsert (fqpvname src_device) (.stale (fqpvname src_device)) st.pvs))}) := by
    simp only [reload_single_pv]
    rw [hupd]
    simp [alook, aupsert]
  have hget : getPv
      {st with pvs := aupsert (fqpvname src_device) (.stale (fqpvname src_device)) st.pvs}
      (fqpvname (fqpvname src_device)) [line] none
      = (.ok (.fresh (PV.fromFields (splitLine line))),
         {st with pvs := (aupsert (fqpvname src_device)
            (.fresh (PV.fromFields (splitLine line)))
            (aupsert (fqpvname src_device) (.stale (fqpvname src_device)) st.pvs))},
         0, 1) := by
    rw [hidem]
    simp only [getPv]
    have hlook : alook (fqpvname src_device)
        ({st with pvs := aupsert (fqpvname src_device) (.stale (fqpvname src_device)) st.pvs}
          : LVMState).pvs
        = some (.stale (fqpvname src_device)) := alook_aupsert_self _ _ _
    rw [hlook]
    simp only [Entry.is_stale, if_true]
    rw [hrel]
  have hmv : movePV st vgName src_device [line] none pvmove_error
      = (.ok (), {st with pvs := (aupsert (fqpvname src_device)
          (.fresh (PV.fromFields (splitLine line)))
          (aupsert (fqpvname src_device) (.stale (fqpvname src_device)) st.pvs))}, false) := by
    simp only [movePV]
    rw [show invalidatepvs st [fqpvname src_device]
        = {st with pvs := aupsert (fqpvname src_device) (.stale (fqpvname src_device)) st.pvs}
      from rfl]
    rw [hget]
    simp only [if_pos halloc]
  refine ⟨hmv, ?_, ?_, ?_, ?_⟩
  · rw [hmv]
  · rw [hmv]
  · rw [hmv]
    exact alook_aupsert_self _ _ _
  · intro j hj
    rw [hmv]
    have h1 := alook_aupsert_ne hj (Entry.fresh (PV.fromFields (splitLine line)))
      (aupsert (fqpvname src_device) (.stale (fqpvname src_device)) st.pvs)
    have h2 := alook_aupsert_ne hj (Entry.stale (fqpvname src_device)) st.pvs
    calc alook j ({st with pvs := (aupsert (fqpvname src_device)
          (.fresh (PV.fromFields (splitLine line)))
          (aupsert (fqpvname src_device) (.stale (fqpvname src_device)) st.pvs))}
            : LVMState).pvs
        = alook j (aupsert (fqpvname src_device) (.stale (fqpvname src_device)) st.pvs) := h1
      _ = alook j st.pvs := h2

/-- Witness for C9 at a concrete cache and `pvs` line. -/
theorem movePV_no_data_skips_pvmove_witness :
    movePV c9_state "vg9" "p9" [c9_line] none none
      = (.ok (), {c9_state with pvs := (aupsert (fqpvname "p9")
          (.fresh (PV.fromFields (splitLine c9_line)))
          (aupsert (fqpvname "p9") (.stale (fqpvname "p9")) c9_state.pvs))}, false) ∧
    (movePV c9_state "vg9" "p9" [c9_line] none none).2.1.vgs = c9_state.vgs ∧
    (movePV c9_state "vg9" "p9" [c9_line] none none).2.1.lvs = c9_state.lvs ∧
    alook (fqpvname "p9") (movePV c9_state "vg9" "p9" [c9_line] none none).2.1.pvs
      = some (.fresh (PV.fromFields (splitLine c9_line))) ∧
    (∀ j, j ≠ fqpvname "p9" →
      alook j (movePV c9_state "vg9" "p9" [c9_line] none none).2.1.pvs
        = alook j c9_state.pvs) :=
  movePV_no_data_skips_pvmove c9_state "vg9" "p9" c9_line
    "pu9" "1000" "vg9" "vu9" "0" "10" "2" "1000" "2" none (by decide)

-- ### C10: bootstrap full LV load

theorem mem_sinsert {m x : String} {l : List String} : m ∈ sinsert x l ↔ m ∈ l ∨ m = x := by
  unfold sinsert
  by_cases h : x ∈ l
  · simp only [if_pos h]
    constructor
    · exact Or.inl
    · rintro (hm | hm)
      · exact hm
      · rw [hm]
        exact h
  · simp [if_neg h, List.mem_append]

theorem mem_foldl_sinsert :
    ∀ (l acc : List String) (n : String),
      n ∈ l.foldl (fun a x => sinsert x a) acc ↔ n ∈ acc ∨ n ∈ l
  | [], acc, n => by simp
  | x :: rest, acc, n => by
    rw [List.foldl_cons, mem_foldl_sinsert rest (sinsert x acc) n, mem_sinsert]
    constructor
    · rintro ((h | h) | h)
      · exact Or.inl h
      · exact Or.inr (by simp [h])
      · exact Or.inr (by simp [h])
    · rintro (h | h)
      · exact Or.inl (Or.inl h)
      · rcases List.mem_cons.mp h with h1 | h1
        · exact Or.inl (Or.inr h1)
        · exact Or.inr h1

theorem mem_setOfNames {n : String} {l : List String} : n ∈ setOfNames l ↔ n ∈ l := by
  rw [setOfNames, mem_foldl_sinsert]
  simp

/-- Every entry of the dict built by the `_loadAllLvs` parse loop is a
fresh first-extent record keyed by its own `(vg_name, name)`. -/
theorem parse_all_lvs_entries :
    ∀ (lines : List String) (acc nl : List ((String × String) × Entry LV)),
      (∀ k en, alook k acc = some en →
        ∃ lv, en = .fresh lv ∧ lv.seg_start_pe = "0" ∧ k = (lv.vg_name, lv.name)) →
      parse_all_lvs acc lines = .ok nl →
      ∀ k en, alook k nl = some en →
        ∃ lv, en = .fresh lv ∧ lv.seg_start_pe = "0" ∧ k = (lv.vg_name, lv.name)
  | [], acc, nl, hinv, hok => by
    have : acc = nl := by simpa [parse_all_lvs] using hok
    rw [← this]
    exact hinv
  | line :: rest, acc, nl, hinv, hok => by
    by_cases hlen : (splitLine line).length = LV_FIELDS_LEN
    · cases hf : LV.fromFields (splitLine line) with
      | none =>
        rw [parse_all_lvs, if_pos hlen, hf] at hok
        cases hok
      | some lv =>
        by_cases hseg : lv.seg_start_pe = "0"
        · rw [parse_all_lvs, if_pos hlen, hf] at hok
          simp only [if_pos hseg] at hok
          refine parse_all_lvs_entries rest _ nl ?_ hok
          intro k en hk
          by_cases hkey : k = (lv.vg_name, lv.name)
          · subst hkey
            rw [alook_aupsert_self] at hk
            cases hk
            exact ⟨lv, rfl, hseg, rfl⟩
          · rw [alook_aupsert_ne hkey] at hk
            exact hinv k en hk
        · rw [parse_all_lvs, if_pos hlen, hf] at hok
          simp only [if_neg hseg] at hok
          exact parse_all_lvs_entries rest _ nl hinv hok
    · rw [parse_all_lvs, if_neg hlen] at hok
      cases hok

/-- C10: `_loadAllLvs` is all-or-nothing — a failing `lvs` command (and
likewise a parse error) leaves the whole cache state, in particular the LV
map and `freshlv`, unchanged; on success the LV map is replaced in one step
by exactly the parsed first-extent rows (each entry a fresh record with
`seg_start_pe = "0"` keyed by its own names, independent of the previous
map) and `freshlv` becomes exactly the set of VG names of the new map. -/
theorem loadAllLvs_all_or_nothing (st : LVMState) (out : List String) (e : LVMCommandError) :
    (loadAllLvs st out (some e) = (st, none)) ∧
    (∀ e2, parse_all_lvs [] out = .error e2 → loadAllLvs st out none = (st, some e2)) ∧
    (∀ nl, parse_all_lvs [] out = .ok nl →
      loadAllLvs st out none
        = ({st with lvs := nl, freshlv := setOfNames (nl.map (fun p => p.1.1))}, none) ∧
      (∀ k en, alook k nl = some en →
        ∃ lv, en = .fresh lv ∧ lv.seg_start_pe = "0" ∧ k = (lv.vg_name, lv.name)) ∧
      (∀ n, n ∈ setOfNames (nl.map (fun p => p.1.1)) ↔ n ∈ nl.map (fun p => p.1.1))) := by
  refine ⟨rfl, ?_, ?_⟩
  · intro e2 hp
    simp [loadAllLvs, hp]
  · intro nl hp
    refine ⟨by simp [loadAllLvs, hp], ?_, fun n => mem_setOfNames⟩
    exact parse_all_lvs_entries out [] nl (by intro k en hk; simp [alook] at hk) hp

/-- Witness for C10 at a two-line `lvs` report (one first-extent row, one
later-extent row) over a non-empty previous cache. -/
theorem loadAllLvs_all_or_nothing_witness :
    (loadAllLvs c10_state [c10_line1, c10_line2] (some ⟨5, [], []⟩) = (c10_state, none)) ∧
    (loadAllLvs c10_state [c10_line1, c10_line2] none
      = ({c10_state with
            lvs := parse_all_lvs [] [c10_line1, c10_line2] |>.toOption |>.getD []
          , freshlv := ["v1"]}, none)) := by
  have h := loadAllLvs_all_or_nothing c10_state [c10_line1, c10_line2] ⟨5, [], []⟩
  refine ⟨h.1, ?_⟩
  have h2 := (h.2.2 (parse_all_lvs [] [c10_line1, c10_line2] |>.toOption |>.getD [])
    rfl).1
  rw [h2]
  decide

end Lvm
